import Mathlib

/-!
Verification of the jankey CLI's core string, retry and error-classification
logic, shallowly embedded from the Go sources:

* `internal/tailscale/authkey.go` (OAuth-authorized key-creation client)
* `internal/oauth/oauth.go` (OAuth token client)
* `internal/apikey` (API-key client)
* `internal/pass/pass.go` (secret resolution)
* `cmd` (flag/option plumbing, `parseTags`)

Strings are modelled as Lean `String` / `List Char` (Go indexes bytes, the
sources only ever slice at ASCII boundaries for the properties below, so the
character-level model is faithful). Network and process effects are made
explicit: an HTTP attempt is a function from the attempt index to an outcome,
and functions that sleep or consult the environment return a trace of having
done so.
-/

namespace Jankey

/-- Embeds `contains` from `internal/tailscale/authkey.go` (the identical
function also appears in `internal/oauth/oauth.go` and `internal/apikey`):

    func contains(s, substr string) bool \x7b
        return len(s) >= len(substr) && (s == substr || len(substr) == 0 ||
            (len(s) > 0 && (s[:len(substr)] == substr || contains(s[1:], substr))))
    \x7d

The Go `len(s) > 0 &&` guard is rendered as the match on `s`: the branch with
the recursive call is exactly the `len(s) > 0` case. -/
def containsGo : List Char → List Char → Bool
  | [], substr =>
    if ([] : List Char).length ≥ substr.length then
      if ([] : List Char) = substr then true
      else if substr.length = 0 then true
      else false
    else false
  | c :: rest, substr =>
    if (c :: rest).length ≥ substr.length then
      if c :: rest = substr then true
      else if substr.length = 0 then true
      else if (c :: rest).take substr.length = substr then true
      else containsGo rest substr
    else false

/-- String-level wrapper for `containsGo`, as the Go sources call it. -/
def containsStr (s substr : String) : Bool :=
  containsGo s.data substr.data

/-- Embeds `isNetworkError` from `internal/tailscale/authkey.go` (duplicated in
`internal/oauth/oauth.go` and `internal/apikey`). The Go function takes the
`error` value and first tests `err == nil`; here the argument is the error's
text, so the function models the `err != nil` case, which is the only case in
which `executeWithRetry` consults it. -/
def isNetworkError (errStr : String) : Bool :=
  containsStr errStr "timeout" ||
  containsStr errStr "connection refused" ||
  containsStr errStr "connection reset" ||
  containsStr errStr "no such host" ||
  containsStr errStr "temporary failure"

/-- An HTTP response as far as the embedded code observes it. -/
structure HttpResponse where
  statusCode : Nat
  body : String
deriving DecidableEq

/-- Outcome of one `c.httpClient.Do(req)` call: a response, or an error with
its text. -/
inductive AttemptOutcome where
  | ok (resp : HttpResponse)
  | err (msg : String)
deriving DecidableEq

/-- Observable result of `executeWithRetry`: the returned value, the number of
`httpClient.Do` calls made, and the list of sleep durations (in seconds, in
order) performed before retries. -/
structure RetryResult where
  outcome : Except String HttpResponse
  attempts : Nat
  sleeps : List Nat

/-- Loop body of `executeWithRetry` from `internal/tailscale/authkey.go`
(duplicated in `internal/oauth/oauth.go` and `internal/apikey`):

    for attempt := 0; attempt <= maxRetries; attempt++ \x7b
        if attempt > 0 \x7b
            waitTime := time.Duration(1<<uint(attempt-1)) * time.Second
            time.Sleep(waitTime)
        \x7d
        resp, err = c.httpClient.Do(req)
        if err == nil \x7b return resp, nil \x7d
        if !isNetworkError(err) \x7b break \x7d
    \x7d
    return nil, fmt.Errorf("failed after %d retries: %w", maxRetries, err)

`doReq i` is the outcome of the `Do` call on loop iteration `i`; `fuel` counts
the loop iterations still allowed by `attempt <= maxRetries` (at entry it is
`maxRetries + 1 - attempt`); `attemptsMade`, `sleeps` and `lastErr` carry the
trace and the current value of `err`. -/
def executeWithRetryAux (doReq : Nat → AttemptOutcome) (maxRetries : Nat) :
    Nat → Nat → Nat → List Nat → String → RetryResult
  | _, 0, attemptsMade, sleeps, lastErr =>
    ⟨Except.error ("failed after " ++ toString maxRetries ++ " retries: " ++ lastErr),
      attemptsMade, sleeps⟩
  | attempt, fuel + 1, attemptsMade, sleeps, _ =>
    let sleeps' := if attempt > 0 then sleeps ++ [2 ^ (attempt - 1)] else sleeps
    match doReq attempt with
    | .ok resp => ⟨Except.ok resp, attemptsMade + 1, sleeps'⟩
    | .err msg =>
      if isNetworkError msg then
        executeWithRetryAux doReq maxRetries (attempt + 1) fuel (attemptsMade + 1) sleeps' msg
      else
        ⟨Except.error ("failed after " ++ toString maxRetries ++ " retries: " ++ msg),
          attemptsMade + 1, sleeps'⟩

/-- Embeds `executeWithRetry(req, maxRetries)`: the loop starts at
`attempt = 0`, so `maxRetries + 1` iterations are allowed. -/
def executeWithRetry (doReq : Nat → AttemptOutcome) (maxRetries : Nat) : RetryResult :=
  executeWithRetryAux doReq maxRetries 0 (maxRetries + 1) 0 [] ""

/-- Models Go's `unicode.IsSpace`: the Latin-1 white space characters
`'\t'`, `'\n'`, `'\v'`, `'\f'`, `'\r'`, `' '`, U+0085, U+00A0, plus the
characters with the Unicode White_Space property above Latin-1. -/
def goIsSpace (c : Char) : Bool :=
  let n := c.toNat
  n = 9 || n = 10 || n = 11 || n = 12 || n = 13 || n = 32 ||
  n = 0x85 || n = 0xA0 || n = 0x1680 || (0x2000 ≤ n && n ≤ 0x200A) ||
  n = 0x2028 || n = 0x2029 || n = 0x202F || n = 0x205F || n = 0x3000

/-- Models Go's `strings.TrimSpace` on the character list: drop leading and
trailing characters satisfying `goIsSpace`. -/
def goTrimSpaceL (s : List Char) : List Char :=
  ((s.dropWhile goIsSpace).reverse.dropWhile goIsSpace).reverse

/-- String-level `strings.TrimSpace`. -/
def goTrimSpace (s : String) : String :=
  String.mk (goTrimSpaceL s.data)

/-- Models Go's `strings.Split(s, ",")` on the character list: the segments
between commas, in order; the empty input yields one empty segment, as in Go. -/
def splitOnComma : List Char → List (List Char)
  | [] => [[]]
  | c :: rest =>
    if c = ',' then [] :: splitOnComma rest
    else
      match splitOnComma rest with
      | [] => [[c]]
      | seg :: segs => (c :: seg) :: segs

/-- String-level `strings.Split(s, ",")`. -/
def goSplitComma (s : String) : List String :=
  (splitOnComma s.data).map String.mk

/-- Models Go's `strings.HasPrefix(s, "tag:")`. -/
def hasTagColon (s : String) : Bool :=
  "tag:".data.isPrefixOf s.data

/-- Loop body of `parseTags` from `cmd` (root.go):

    for _, tag := range parts \x7b
        tag = strings.TrimSpace(tag)
        if tag != "" \x7b
            if !strings.HasPrefix(tag, "tag:") \x7b tag = "tag:" + tag \x7d
            result = append(result, tag)
        \x7d
    \x7d
-/
def parseTagsStep (result : List String) (tag : String) : List String :=
  let tag := goTrimSpace tag
  if tag ≠ "" then
    let tag := if ¬ hasTagColon tag then "tag:" ++ tag else tag
    result ++ [tag]
  else result

/-- Embeds `parseTags(tagString)` from `cmd`: split on commas, then run the
trim/drop/normalize loop over the parts. -/
def parseTags (tagString : String) : List String :=
  (goSplitComma tagString).foldl parseTagsStep []

/-- The tag-normalization pipeline as the spec words it: split on commas, trim
surrounding whitespace from each segment, drop empty segments, prepend
`tag:` to every segment not already starting with it. Stated from the spec;
to be compared with `parseTags`, which is embedded from the source. -/
def parseTagsSpec (tagString : String) : List String :=
  ((((goSplitComma tagString).map goTrimSpace).filter (fun t => t ≠ "")).map
    (fun t => if hasTagColon t then t else "tag:" ++ t))

/-- The anonymous struct `handleAPIError` unmarshals the body into:
`Message string; Error string` (absent JSON fields come back as `""`). -/
structure ErrorResp where
  message : String
  error : String
deriving DecidableEq

/-- The message-extraction half of `handleAPIError` from
`internal/tailscale/authkey.go`. `parsed` is the outcome of
`json.Unmarshal(body, &errorResp)`, modelled abstractly (`none` = Unmarshal
returned an error; `some r` = it succeeded with fields `r`): the JSON library
itself is not re-implemented here. Mirrors

    if err := json.Unmarshal(body, &errorResp); err == nil \x7b
        if errorResp.Message != "" \x7b errorMsg = errorResp.Message \x7d
        else if errorResp.Error != "" \x7b errorMsg = errorResp.Error \x7d
    \x7d
    if errorMsg == "" \x7b errorMsg = string(body) \x7d
-/
def apiErrorMsg (body : String) (parsed : Option ErrorResp) : String :=
  let errorMsg :=
    match parsed with
    | some r => if r.message ≠ "" then r.message else if r.error ≠ "" then r.error else ""
    | none => ""
  if errorMsg = "" then body else errorMsg

/-- Embeds the `switch statusCode` of `handleAPIError` from
`internal/tailscale/authkey.go`, producing the final error text. -/
def handleAPIError (statusCode : Nat) (body : String) (parsed : Option ErrorResp) : String :=
  let errorMsg := apiErrorMsg body parsed
  if statusCode = 401 then
    "API token invalid (401): " ++ errorMsg ++
      "\n\nThe OAuth access token may have expired or is invalid"
  else if statusCode = 403 then
    "access forbidden (403): " ++ errorMsg ++
      "\n\nEnsure your OAuth client has the required permissions"
  else if statusCode = 400 then
    if containsStr errorMsg "capability" then
      "invalid request (400): " ++ errorMsg ++
        "\n\nThis may be due to missing or invalid tags in the request"
    else "invalid request (400): " ++ errorMsg
  else if statusCode = 429 then
    "rate limited (429): " ++ errorMsg ++ "\n\nPlease wait before retrying"
  else
    "API request failed (" ++ toString statusCode ++ "): " ++ errorMsg

/-- Embeds `ValidateAPIKey` from `internal/apikey`: `some errText` models the
returned error, `none` models success.

    if len(c.apiKey) < 10 || !strings.HasPrefix(c.apiKey, "tskey-api-") \x7b
        return fmt.Errorf("API key appears to be invalid ...")
    \x7d
    return nil

Go's `len` is the byte length, modelled by `String.utf8ByteSize`; `HasPrefix`
by `List.isPrefixOf` on the characters. -/
def validateAPIKey (apiKey : String) : Option String :=
  if apiKey.utf8ByteSize < 10 || ¬ "tskey-api-".data.isPrefixOf apiKey.data then
    some ("API key appears to be invalid (should start with 'tskey-api-')" ++
      "\n\nGenerate a new one at: https://login.tailscale.com/admin/settings/keys")
  else none

/-- Options for creating an auth key (`AuthKeyOptions` in both clients). -/
structure AuthKeyOptions where
  ephemeral : Bool
  reusable : Bool
  preauthorized : Bool
  expiryDays : Int
  tags : List String
  description : String
deriving DecidableEq

/-- The request body `models.AuthKeyRequest`, flattened to the fields the
embedded code writes (the nested capability wrappers carry no other data). -/
structure AuthKeyRequest where
  reusable : Bool
  ephemeral : Bool
  preauthorized : Bool
  requestTags : List String
  expirySeconds : Int
  description : String
deriving DecidableEq

/-- The request-body construction inside `CreateAuthKey`
(`internal/tailscale/authkey.go`): expiry in seconds (`0` meaning the service
maximum) and the capability fields copied from the options. -/
def buildAuthKeyRequest (opts : AuthKeyOptions) : AuthKeyRequest :=
  { reusable := opts.reusable
    ephemeral := opts.ephemeral
    preauthorized := opts.preauthorized
    requestTags := opts.tags
    expirySeconds := if opts.expiryDays > 0 then opts.expiryDays * 24 * 60 * 60 else 0
    description := opts.description }

/-- What `CreateAuthKey` (`internal/tailscale/authkey.go`) does before any
network interaction: either it returns the tag-validation error without
building a request, or it reaches `c.executeWithRetry` with the request it
built. -/
inductive CreateStep where
  | earlyError (msg : String)
  | sendRequest (req : AuthKeyRequest)
deriving DecidableEq

/-- Embeds the pre-network part of `CreateAuthKey` from
`internal/tailscale/authkey.go`:

    if len(opts.Tags) == 0 \x7b
        return nil, fmt.Errorf("tags are required by Tailscale API ...")
    \x7d
    ... build reqBody ... resp, err := c.executeWithRetry(req, 3)
-/
def createAuthKeyPlan (opts : AuthKeyOptions) : CreateStep :=
  if opts.tags.length = 0 then
    .earlyError "tags are required by Tailscale API (must specify at least one tag)"
  else
    .sendRequest (buildAuthKeyRequest opts)

/-- Embeds `GetFromPassOrEnv` from `internal/pass/pass.go`. `passClient` is
`none` when the `pass` client is nil; otherwise `some get` where `get path` is
the outcome of `passClient.Get(path)`. `env` models `os.Getenv` (unset reads
as `""`). The `Bool` in the result records whether `os.Getenv` was called. -/
def getFromPassOrEnv (passClient : Option (String → Except String String))
    (passPath envVar : String) (env : String → String) :
    Except String String × Bool :=
  match passClient with
  | some get =>
    match get passPath with
    | .ok value => (.ok value, false)
    | .error _ =>
      let value := env envVar
      if value = "" then
        (.error ("secret not found in pass at '" ++ passPath ++
          "' or environment variable '" ++ envVar ++ "'"), true)
      else (.ok value, true)
  | none =>
    let value := env envVar
    if value = "" then
      (.error ("pass not available and environment variable '" ++ envVar ++ "' not set"), true)
    else (.ok value, true)

/-- Embeds `redactClientID` from `internal/oauth/oauth.go`:

    if len(c.clientID) <= 8 \x7b return "****" \x7d
    return c.clientID[:4] + "****" + c.clientID[len(c.clientID)-4:]
-/
def redactClientID (clientID : String) : String :=
  if clientID.length ≤ 8 then "****"
  else
    String.mk (clientID.data.take 4) ++ "****" ++
      String.mk (clientID.data.drop (clientID.length - 4))

/-- The command-line flags `buildOAuthOptions` reads, with the two
`cmd.Flags().Changed(...)` lookups made explicit. -/
structure CmdFlags where
  ephemeral : Bool
  reusable : Bool
  preauthorizedChanged : Bool
  noPreauthorizedChanged : Bool
  expiryDays : Int
  tags : String
  description : String

/-- The `auth_key_defaults` section of the configuration. -/
structure AuthKeyDefaults where
  ephemeral : Bool
  reusable : Bool
  preauthorized : Bool
  expiryDays : Int
  tags : List String

/-- Embeds `buildOAuthOptions(cmd, cfg)` from `cmd`: defaults from the config,
the `["tag:container"]` substitution when the default tag list is empty, then
the flag overrides, in source order. -/
def buildOAuthOptions (flags : CmdFlags) (defaults : AuthKeyDefaults) : AuthKeyOptions :=
  let opts : AuthKeyOptions :=
    { ephemeral := defaults.ephemeral
      reusable := defaults.reusable
      preauthorized := defaults.preauthorized
      expiryDays := defaults.expiryDays
      tags := defaults.tags
      description := "Generated by jankey" }
  let opts := if opts.tags.length = 0 then { opts with tags := ["tag:container"] } else opts
  let opts := if flags.ephemeral then { opts with ephemeral := true } else opts
  let opts := if flags.reusable then { opts with reusable := true } else opts
  let opts := if flags.preauthorizedChanged then { opts with preauthorized := true } else opts
  let opts := if flags.noPreauthorizedChanged then { opts with preauthorized := false } else opts
  let opts := if flags.expiryDays > 0 then { opts with expiryDays := flags.expiryDays } else opts
  let opts := if flags.tags ≠ "" then { opts with tags := parseTags flags.tags } else opts
  let opts := if flags.description ≠ "" then { opts with description := flags.description } else opts
  opts

/-- What `generateWithAPIKey` (`cmd`) does between resolving the credential and
creating the key: it aborts with an error if `ValidateAPIKey` fails, and only
otherwise proceeds to `apiClient.CreateAuthKey(opts)`. -/
inductive GenStep where
  | genError (msg : String)
  | genCreate (opts : AuthKeyOptions)
deriving DecidableEq

/-- Embeds the validation step of `generateWithAPIKey` from `cmd`:

    if err := apiClient.ValidateAPIKey(); err != nil \x7b
        return nil, fmt.Errorf("API key validation failed: %w", err)
    \x7d
    opts := buildAPIKeyOptions(cmd, cfg)
    authKeyResp, err := apiClient.CreateAuthKey(opts)
-/
def generateWithAPIKeyPlan (apiKeyValue : String) (opts : AuthKeyOptions) : GenStep :=
  match validateAPIKey apiKeyValue with
  | some e => .genError ("API key validation failed: " ++ e)
  | none => .genCreate opts

/-- Characterization of the hand-rolled `contains`: it decides the contiguous
substring relation. Shared helper for several theorems below. -/
theorem containsGo_charac (s substr : List Char) :
    containsGo s substr = true ↔ substr <:+: s := by
  induction s with
  | nil =>
    cases substr with
    | nil => simp [containsGo]
    | cons d ds => simp [containsGo, List.infix_nil]
  | cons c rest ih =>
    by_cases hlen : substr.length ≤ rest.length + 1
    · by_cases heq : c :: rest = substr
      · subst heq
        simp [containsGo, List.infix_refl]
      · by_cases hnil : substr.length = 0
        · have hs : substr = [] := List.length_eq_zero.mp hnil
          subst hs
          simp [containsGo, List.nil_infix]
        · by_cases htake : (c :: rest).take substr.length = substr
          · have hpre : substr <+: c :: rest := List.prefix_iff_eq_take.mpr htake.symm
            simp [containsGo, hlen, heq, hnil, htake, hpre.isInfix]
          · have hnp : ¬ substr <+: c :: rest := fun hp =>
              htake (List.prefix_iff_eq_take.mp hp).symm
            rw [show containsGo (c :: rest) substr = containsGo rest substr from by
                  simp [containsGo, hlen, heq, hnil, htake],
                ih, List.infix_cons_iff]
            simp [hnp]
    · have hni : ¬ substr <:+: c :: rest := fun h => hlen (by simpa using h.length_le)
      simp [containsGo, hlen, hni]


/-- C9: the hand-rolled recursive helper `contains(s, substr)` returns true if
and only if `substr` occurs as a contiguous substring of `s`, for every pair of
strings (in particular the empty-substring and equal-length cases): it is
extensionally equal to the standard substring predicate `<:+:`. Termination on
all inputs is witnessed by `containsGo` being accepted as a total function. -/
theorem contains_decides_substring (s substr : List Char) :
    containsGo s substr = true ↔ substr <:+: s :=
  containsGo_charac s substr

/-- C1: with `maxRetries = 3`, when attempts 1-3 fail with network-retryable
errors and attempt 4 returns a response, `executeWithRetry` makes exactly 4
attempts, sleeps 1s, 2s and 4s (`2^(attempt-1)` seconds) before the 2nd, 3rd
and 4th attempts, and returns the successful response. -/
theorem retry_transient_failures_then_success
    (doReq : Nat → AttemptOutcome) (e0 e1 e2 : String) (resp : HttpResponse)
    (h0 : doReq 0 = .err e0) (n0 : isNetworkError e0 = true)
    (h1 : doReq 1 = .err e1) (n1 : isNetworkError e1 = true)
    (h2 : doReq 2 = .err e2) (n2 : isNetworkError e2 = true)
    (h3 : doReq 3 = .ok resp) :
    executeWithRetry doReq 3 = ⟨Except.ok resp, 4, [1, 2, 4]⟩ := by
  simp [executeWithRetry, executeWithRetryAux, h0, h1, h2, h3, n0, n1, n2]

/-- Witness for C1 at a concrete request: three timeouts then a 200 response. -/
theorem retry_transient_failures_then_success_witness :
    executeWithRetry (fun i => if i < 3 then .err "timeout" else .ok ⟨200, "ok"⟩) 3 =
      ⟨Except.ok ⟨200, "ok"⟩, 4, [1, 2, 4]⟩ :=
  retry_transient_failures_then_success _ "timeout" "timeout" "timeout" ⟨200, "ok"⟩
    rfl (by decide) rfl (by decide) rfl (by decide) rfl

/-- C2: a first attempt failing with an error whose text contains none of the
five network-retryable markers makes `executeWithRetry` perform exactly one
attempt, sleep zero times and fail immediately; and any attempt that returns a
response (whatever its status code) is returned immediately, with exactly one
more attempt made and no further ones. -/
theorem retry_nonretryable_and_response_immediate :
    (∀ (doReq : Nat → AttemptOutcome) (maxRetries : Nat) (msg : String),
      doReq 0 = .err msg →
      containsStr msg "timeout" = false →
      containsStr msg "connection refused" = false →
      containsStr msg "connection reset" = false →
      containsStr msg "no such host" = false →
      containsStr msg "temporary failure" = false →
      executeWithRetry doReq maxRetries =
        ⟨Except.error ("failed after " ++ toString maxRetries ++ " retries: " ++ msg),
          1, []⟩) ∧
    (∀ (doReq : Nat → AttemptOutcome) (maxRetries attempt fuel attemptsMade : Nat)
      (sleeps : List Nat) (lastErr : String) (resp : HttpResponse),
      doReq attempt = .ok resp →
      (executeWithRetryAux doReq maxRetries attempt (fuel + 1) attemptsMade sleeps
          lastErr).outcome = Except.ok resp ∧
      (executeWithRetryAux doReq maxRetries attempt (fuel + 1) attemptsMade sleeps
          lastErr).attempts = attemptsMade + 1) := by
  constructor
  · intro doReq maxRetries msg h0 c1 c2 c3 c4 c5
    have hn : isNetworkError msg = false := by
      simp [isNetworkError, c1, c2, c3, c4, c5]
    simp [executeWithRetry, executeWithRetryAux, h0, hn]
  · intro doReq maxRetries attempt fuel attemptsMade sleeps lastErr resp h
    constructor <;> simp [executeWithRetryAux, h]

/-- Witness for C2: a concrete non-retryable failure, and a concrete
mid-loop attempt that returns a response. -/
theorem retry_nonretryable_and_response_immediate_witness :
    executeWithRetry (fun _ => .err "boom") 3 =
      ⟨Except.error ("failed after " ++ toString 3 ++ " retries: " ++ "boom"), 1, []⟩ ∧
    (executeWithRetryAux (fun _ => .ok ⟨500, "b"⟩) 3 2 2 2 [1, 2] "e").outcome =
      Except.ok ⟨500, "b"⟩ :=
  ⟨retry_nonretryable_and_response_immediate.1 _ 3 "boom" rfl (by decide) (by decide)
      (by decide) (by decide) (by decide),
    (retry_nonretryable_and_response_immediate.2 _ 3 2 1 2 [1, 2] "e" ⟨500, "b"⟩ rfl).1⟩

/-- The `parseTags` accumulation loop, rephrased: folding `parseTagsStep` over
the comma-separated parts appends the trimmed, non-empty, `tag:`-normalized
segments in order. -/
theorem parseTags_foldl (l : List String) (acc : List String) :
    l.foldl parseTagsStep acc =
      acc ++ (((l.map goTrimSpace).filter (fun t => t ≠ "")).map
        (fun t => if hasTagColon t then t else "tag:" ++ t)) := by
  induction l generalizing acc with
  | nil => simp
  | cons x xs ih =>
    simp only [List.foldl_cons, List.map_cons, List.filter_cons]
    by_cases hx : goTrimSpace x = ""
    · simp [parseTagsStep, hx, ih]
    · cases h : hasTagColon (goTrimSpace x) <;> simp [parseTagsStep, hx, ih, h]

/-- C3: `parseTags` splits on commas, trims surrounding whitespace from each
segment, drops empty segments, prepends `tag:` to every segment not already
carrying the prefix and leaves the rest unchanged (it equals the spec-side
pipeline `parseTagsSpec` on every input); in particular the two examples from
the spec hold. -/
theorem parseTags_normalization :
    (∀ t : String, parseTags t = parseTagsSpec t) ∧
    parseTags "tag:docker, ci, tag:production" =
      ["tag:docker", "tag:ci", "tag:production"] ∧
    parseTags "" = [] := by
  refine ⟨fun t => ?_, by decide, by decide⟩
  simpa [parseTags, parseTagsSpec] using parseTags_foldl (goSplitComma t) []

/-- Characters of an appended string: shared helper. -/
theorem data_append (a b : String) : (a ++ b).data = a.data ++ b.data := rfl

/-- Shared helper: `contains` holds whenever the substring's characters occur
contiguously between two (possibly empty) surrounding pieces. -/
theorem containsStr_parts (x s : String) (u v : List Char)
    (h : x.data = u ++ s.data ++ v) : containsStr x s = true := by
  rw [containsStr, containsGo_charac]
  exact ⟨u, v, h.symm⟩

/-- C4: on status 401 with body `\x7b"message":"invalid token"\x7d` (which
`json.Unmarshal` parses into message `"invalid token"`), the classifier's text
contains both `"invalid token"` and the remediation hint; any status 429 yields
the rate-limit hint; and whenever the body does not parse to a non-empty
`message` or `error` field, the raw body is used as the message. -/
theorem handleAPIError_classification :
    containsStr (handleAPIError 401 "\x7b\"message\":\"invalid token\"\x7d"
        (some ⟨"invalid token", ""⟩)) "invalid token" = true ∧
    containsStr (handleAPIError 401 "\x7b\"message\":\"invalid token\"\x7d"
        (some ⟨"invalid token", ""⟩))
      "The OAuth access token may have expired or is invalid" = true ∧
    (∀ (body : String) (parsed : Option ErrorResp),
      containsStr (handleAPIError 429 body parsed) "Please wait before retrying" = true) ∧
    (∀ (body : String) (parsed : Option ErrorResp),
      (∀ r, parsed = some r → r.message = "" ∧ r.error = "") →
      apiErrorMsg body parsed = body) := by
  refine ⟨by decide, by decide, fun body parsed => ?_, fun body parsed h => ?_⟩
  · have hsplit : ("\n\nPlease wait before retrying" : String) =
        "\n\n" ++ "Please wait before retrying" := rfl
    have hform : handleAPIError 429 body parsed =
        ("rate limited (429): " ++ apiErrorMsg body parsed ++ "\n\n") ++
          "Please wait before retrying" := by
      simp [handleAPIError, hsplit, String.append_assoc]
    rw [hform]
    exact containsStr_parts _ _
      ("rate limited (429): " ++ apiErrorMsg body parsed ++ "\n\n").data []
      (by simp [data_append])
  · match parsed with
    | none => simp [apiErrorMsg]
    | some r =>
      obtain ⟨h1, h2⟩ := h r rfl
      simp [apiErrorMsg, h1, h2]

/-- Witness for C4's quantified conjuncts: a concrete 429 response and a
concrete unparsable body. -/
theorem handleAPIError_classification_witness :
    containsStr (handleAPIError 429 "zzz" none) "Please wait before retrying" = true ∧
    apiErrorMsg "raw bytes <<>>" (some ⟨"", ""⟩) = "raw bytes <<>>" :=
  ⟨handleAPIError_classification.2.2.1 "zzz" none,
    handleAPIError_classification.2.2.2 "raw bytes <<>>" (some ⟨"", ""⟩)
      (fun r hr => by injection hr with h; subst h; exact ⟨rfl, rfl⟩)⟩

/-- C5: `CreateAuthKey` on the OAuth backend rejects an options value with an
empty tag list before constructing or sending any HTTP request: the plan is
the early validation error, not a `sendRequest`. -/
theorem createAuthKey_empty_tags_rejected (opts : AuthKeyOptions)
    (h : opts.tags = []) :
    createAuthKeyPlan opts =
      .earlyError "tags are required by Tailscale API (must specify at least one tag)" := by
  simp [createAuthKeyPlan, h]

/-- Witness for C5 at a concrete options value with no tags. -/
theorem createAuthKey_empty_tags_rejected_witness :
    createAuthKeyPlan ⟨false, true, true, 7, [], "demo"⟩ =
      .earlyError "tags are required by Tailscale API (must specify at least one tag)" :=
  createAuthKey_empty_tags_rejected ⟨false, true, true, 7, [], "demo"⟩ rfl

/-- Shared helper: a string whose characters start with the ten bytes
`tskey-api-` is at least ten bytes long. -/
theorem ten_le_utf8ByteSize_of_tskey (apiKey : String)
    (h : "tskey-api-".data.isPrefixOf apiKey.data = true) :
    10 ≤ apiKey.utf8ByteSize := by
  obtain ⟨t, ht⟩ := List.isPrefixOf_iff_prefix.mp h
  cases apiKey with
  | mk d =>
    rw [String.utf8ByteSize_mk]
    simp only at ht
    rw [← ht, String.utf8Len_append]
    have h10 : String.utf8Len ['t', 's', 'k', 'e', 'y', '-', 'a', 'p', 'i', '-'] = 10 := rfl
    have h10' : String.utf8Len "tskey-api-".data = 10 := h10
    omega

/-- C6: `ValidateAPIKey` returns an error exactly when the credential does not
start with `tskey-api-` (the byte-length guard is subsumed by the prefix
check), the check being a pure function of the credential string; and a
credential failing it makes `generateWithAPIKey` abort with the validation
error before `CreateAuthKey` — and hence any request — is reached. -/
theorem validateAPIKey_format_check :
    (∀ apiKey : String,
      (validateAPIKey apiKey).isSome = true ↔
        ¬ "tskey-api-".data.isPrefixOf apiKey.data = true) ∧
    (∀ (apiKey : String) (opts : AuthKeyOptions),
      ¬ "tskey-api-".data.isPrefixOf apiKey.data = true →
      generateWithAPIKeyPlan apiKey opts =
        .genError ("API key validation failed: " ++
          ("API key appears to be invalid (should start with 'tskey-api-')" ++
            "\n\nGenerate a new one at: https://login.tailscale.com/admin/settings/keys"))) := by
  constructor
  · intro apiKey
    by_cases hpre : "tskey-api-".data.isPrefixOf apiKey.data = true
    · have hge := ten_le_utf8ByteSize_of_tskey apiKey hpre
      have hlt : ¬ apiKey.utf8ByteSize < 10 := by omega
      simp [validateAPIKey, hpre, hlt]
    · simp [validateAPIKey, hpre]
  · intro apiKey opts hpre
    simp [generateWithAPIKeyPlan, validateAPIKey, hpre]

/-- Witness for C6 at a concrete malformed credential. -/
theorem validateAPIKey_format_check_witness :
    ((validateAPIKey "bogus-key").isSome = true ↔
      ¬ "tskey-api-".data.isPrefixOf "bogus-key".data = true) ∧
    generateWithAPIKeyPlan "bogus-key" ⟨false, true, true, 7, ["tag:x"], "demo"⟩ =
      .genError ("API key validation failed: " ++
        ("API key appears to be invalid (should start with 'tskey-api-')" ++
          "\n\nGenerate a new one at: https://login.tailscale.com/admin/settings/keys")) :=
  ⟨validateAPIKey_format_check.1 "bogus-key",
    validateAPIKey_format_check.2 "bogus-key" ⟨false, true, true, 7, ["tag:x"], "demo"⟩
      (by decide)⟩

/-- C7: when the store lookup succeeds its value is returned and the
environment is never read; any store failure falls through silently to the
environment variable (empty counting as absent); and when both fail the error
message names both the store path and the environment variable. -/
theorem getFromPassOrEnv_fallback :
    (∀ (get : String → Except String String) (passPath envVar v : String)
      (env : String → String),
      get passPath = .ok v →
      getFromPassOrEnv (some get) passPath envVar env = (.ok v, false)) ∧
    (∀ (get : String → Except String String) (passPath envVar e : String)
      (env : String → String),
      get passPath = .error e → env envVar ≠ "" →
      getFromPassOrEnv (some get) passPath envVar env = (.ok (env envVar), true)) ∧
    (∀ (get : String → Except String String) (passPath envVar e : String)
      (env : String → String),
      get passPath = .error e → env envVar = "" →
      ∃ msg, getFromPassOrEnv (some get) passPath envVar env = (.error msg, true) ∧
        containsStr msg passPath = true ∧ containsStr msg envVar = true) := by
  refine ⟨fun get passPath envVar v env h => ?_,
    fun get passPath envVar e env h hne => ?_,
    fun get passPath envVar e env h he => ?_⟩
  · simp [getFromPassOrEnv, h]
  · simp [getFromPassOrEnv, h, hne]
  · refine ⟨"secret not found in pass at '" ++ passPath ++
      "' or environment variable '" ++ envVar ++ "'", ?_, ?_, ?_⟩
    · simp [getFromPassOrEnv, h, he]
    · exact containsStr_parts _ _ "secret not found in pass at '".data
        ("' or environment variable '".data ++ envVar.data ++ "'".data)
        (by simp [data_append])
    · exact containsStr_parts _ _
        ("secret not found in pass at '".data ++ passPath.data ++
          "' or environment variable '".data) "'".data
        (by simp [data_append])

/-- Witness for C7: a concrete store hit, a concrete silent fallthrough, and a
concrete double failure. -/
theorem getFromPassOrEnv_fallback_witness :
    getFromPassOrEnv (some fun _ => .ok "s3cret") "jankey/api" "TS_API_KEY"
      (fun _ => "envval") = (.ok "s3cret", false) ∧
    getFromPassOrEnv (some fun _ => .error "gone") "jankey/api" "TS_API_KEY"
      (fun _ => "envval") = (.ok "envval", true) ∧
    (∃ msg, getFromPassOrEnv (some fun _ => .error "gone") "jankey/api" "TS_API_KEY"
        (fun _ => "") = (.error msg, true) ∧
      containsStr msg "jankey/api" = true ∧ containsStr msg "TS_API_KEY" = true) :=
  ⟨getFromPassOrEnv_fallback.1 _ "jankey/api" "TS_API_KEY" "s3cret" _ rfl,
    getFromPassOrEnv_fallback.2.1 _ "jankey/api" "TS_API_KEY" "gone" _ rfl (by decide),
    getFromPassOrEnv_fallback.2.2 _ "jankey/api" "TS_API_KEY" "gone" _ rfl rfl⟩

/-- C8 counterexample: for the 10-character client ID `"ab********"` (longer
than 8 characters), the redacted output is `"ab**********"`, which contains the
full credential as a substring — so "the full credential never appears in the
redacted output" fails as stated. -/
theorem redactClientID_leak_counterexample :
    8 < ("ab********" : String).length ∧
    containsStr (redactClientID "ab********") "ab********" = true := by
  decide

/-- C8 amended: `redactClientID` returns the first 4 characters, `"****"`, and
the last 4 characters for IDs longer than 8 characters, and `"****"` for IDs of
length at most 8; and for every non-empty ID that contains no `'*'` character,
the full credential does not appear in the redacted output. -/
theorem redactClientID_correct :
    (∀ cid : String, cid.length ≤ 8 → redactClientID cid = "****") ∧
    (∀ cid : String, 8 < cid.length →
      redactClientID cid = String.mk (cid.data.take 4) ++ "****" ++
        String.mk (cid.data.drop (cid.length - 4))) ∧
    (∀ cid : String, cid ≠ "" → (∀ c ∈ cid.data, c ≠ '*') →
      containsStr (redactClientID cid) cid = false) := by
  refine ⟨fun cid h => by simp [redactClientID, h],
    fun cid h => by simp [redactClientID, Nat.not_le.mpr h], fun cid hne hstar => ?_⟩
  rw [containsStr, Bool.eq_false_iff]
  intro hcg
  have hinf : cid.data <:+: (redactClientID cid).data := (containsGo_charac _ _).mp hcg
  have hdne : cid.data ≠ [] := fun hd => hne (String.ext hd)
  by_cases hlen : cid.length ≤ 8
  · rw [show redactClientID cid = "****" from by simp [redactClientID, hlen]] at hinf
    obtain ⟨c, hc⟩ := List.exists_mem_of_ne_nil _ hdne
    have hmem : c ∈ ("****" : String).data := hinf.subset hc
    have hstar4 : ("****" : String).data = ['*', '*', '*', '*'] := rfl
    rw [hstar4] at hmem
    have : c = '*' := by simpa using hmem
    exact hstar c hc this
  · have hlcd : cid.length = cid.data.length := rfl
    rw [show redactClientID cid = String.mk (cid.data.take 4) ++ "****" ++
        String.mk (cid.data.drop (cid.length - 4)) from by
          simp [redactClientID, hlen]] at hinf
    obtain ⟨s, t, hst⟩ := hinf
    rw [show (String.mk (cid.data.take 4) ++ "****" ++
        String.mk (cid.data.drop (cid.length - 4))).data =
        cid.data.take 4 ++ ['*', '*', '*', '*'] ++
          cid.data.drop (cid.length - 4) from rfl] at hst
    have h9 : 9 ≤ cid.data.length := by omega
    have htk : (cid.data.take 4).length = 4 := by
      rw [List.length_take]
      exact Nat.min_eq_left (by omega)
    have hdr : (cid.data.drop (cid.length - 4)).length = 4 := by
      rw [List.length_drop]
      omega
    have hlens := congrArg List.length hst
    simp only [List.length_append] at hlens
    rw [htk, hdr] at hlens
    simp only [List.length_cons, List.length_nil] at hlens
    have hsX : s <+: cid.data.take 4 ++ ['*', '*', '*', '*'] ++
        cid.data.drop (cid.length - 4) :=
      ⟨cid.data ++ t, by rw [← List.append_assoc, hst]⟩
    have htX : cid.data.take 4 <+: cid.data.take 4 ++ ['*', '*', '*', '*'] ++
        cid.data.drop (cid.length - 4) :=
      ⟨['*', '*', '*', '*'] ++ cid.data.drop (cid.length - 4), by
        rw [List.append_assoc]⟩
    have hsp : s <+: cid.data.take 4 :=
      List.prefix_of_prefix_length_le hsX htX (by
        rw [htk]
        omega)
    obtain ⟨s2, hs2⟩ := hsp
    have hst2 : s ++ (cid.data ++ t) = s ++ (s2 ++ (['*', '*', '*', '*'] ++
        cid.data.drop (cid.length - 4))) := by
      rw [← List.append_assoc, hst, ← hs2]
      simp [List.append_assoc]
    have hcan : cid.data ++ t = s2 ++ (['*', '*', '*', '*'] ++
        cid.data.drop (cid.length - 4)) := List.append_cancel_left hst2
    have hs2len := congrArg List.length hs2
    simp only [List.length_append] at hs2len
    rw [htk] at hs2len
    have hmid : s2 ++ ['*', '*', '*', '*'] <+: cid.data ++ t :=
      ⟨cid.data.drop (cid.length - 4), by rw [List.append_assoc, hcan]⟩
    have hcidpre : cid.data <+: cid.data ++ t := ⟨t, rfl⟩
    have hcp : s2 ++ ['*', '*', '*', '*'] <+: cid.data :=
      List.prefix_of_prefix_length_le hmid hcidpre (by
        simp only [List.length_append, List.length_cons, List.length_nil]
        omega)
    have hmem : '*' ∈ cid.data :=
      hcp.subset (by simp)
    exact hstar '*' hmem rfl

/-- Witness for C8's amended theorem at concrete client IDs. -/
theorem redactClientID_correct_witness :
    redactClientID "shortid" = "****" ∧
    redactClientID "abcdefghijkl" = String.mk ("abcdefghijkl".data.take 4) ++ "****" ++
      String.mk ("abcdefghijkl".data.drop (("abcdefghijkl" : String).length - 4)) ∧
    containsStr (redactClientID "k-123456789") "k-123456789" = false :=
  ⟨redactClientID_correct.1 "shortid" (by decide),
    redactClientID_correct.2.1 "abcdefghijkl" (by decide),
    redactClientID_correct.2.2 "k-123456789" (by decide) (by decide)⟩

/-- C10: in OAuth mode, when the configured default tag list is empty and the
`--tags` flag is the empty string, `buildOAuthOptions` substitutes
`["tag:container"]`, so the returned options carry a non-empty tag list and
`CreateAuthKey`'s local empty-tags rejection is not triggered: the plan
proceeds to send the built request. -/
theorem buildOAuthOptions_default_tag (flags : CmdFlags) (defaults : AuthKeyDefaults)
    (hdef : defaults.tags = []) (hflag : flags.tags = "") :
    (buildOAuthOptions flags defaults).tags = ["tag:container"] ∧
    createAuthKeyPlan (buildOAuthOptions flags defaults) =
      .sendRequest (buildAuthKeyRequest (buildOAuthOptions flags defaults)) := by
  have htags : (buildOAuthOptions flags defaults).tags = ["tag:container"] := by
    simp [buildOAuthOptions, hdef, hflag, apply_ite AuthKeyOptions.tags]
  exact ⟨htags, by simp [createAuthKeyPlan, htags]⟩

/-- Witness for C10 at a concrete flag set and configuration. -/
theorem buildOAuthOptions_default_tag_witness :
    (buildOAuthOptions ⟨false, false, false, false, 0, "", ""⟩
        ⟨false, false, true, 30, []⟩).tags = ["tag:container"] ∧
    createAuthKeyPlan (buildOAuthOptions ⟨false, false, false, false, 0, "", ""⟩
        ⟨false, false, true, 30, []⟩) =
      .sendRequest (buildAuthKeyRequest
        (buildOAuthOptions ⟨false, false, false, false, 0, "", ""⟩
          ⟨false, false, true, 30, []⟩)) :=
  buildOAuthOptions_default_tag ⟨false, false, false, false, 0, "", ""⟩
    ⟨false, false, true, 30, []⟩ rfl rfl

end Jankey
